import Mathlib

/-!
Verification development for the job-matrix expansion and Condor submission
command of the bigmess repository (src/bigmess/cmdline/cmd_build_pkg_condor.py).

The embedding models, from the source of `run(args)`:
  * the token-rewriting loop over `sys.argv` (lines 77-111), including the
    duplicated `--arch` classification arm;
  * the split of the descriptor path from the rewritten argument vector
    (lines 112-114);
  * the per-family option resolution for the source-include policy
    (lines 147-149) and, modelled from the spec, `get_build_option`;
  * the environment x architecture job expansion loop (lines 137-198) with
    its threaded `source_include` / `first_arch` state;
  * the log-directory creation step (lines 158-160) over an abstract
    filesystem;
  * the final `condor_submit` invocation and failure propagation
    (lines 200-203).

Collaborators that live outside the two source files under src/
(`_backport_dsc`, `_get_chroot_base`, `cfg.get`, the architecture-list
resolution through `get_build_option`, deb822 parsing) enter the model as
function parameters.
-/

namespace Bigmess

/-- A Python value as far as truthiness and the `is None` test are concerned:
the `source_include` variable of `run` holds either `None`, `False`
(the default of the `cfg.get` call on line 149 and the reset on line 198),
or a string. -/
inductive PyVal where
  | none : PyVal
  | bfalse : PyVal
  | str : String → PyVal
  deriving DecidableEq, Repr

/-- Python truthiness of such a value: `None` and `False` are falsy, a string
is truthy iff it is nonempty. -/
def PyVal.truthy : PyVal → Bool
  | .none => false
  | .bfalse => false
  | .str s => !(s == "")

/-- Models Python `s.startswith(pre)`: `pre` is a prefix of `s`. -/
def pyStartswith (s pre : String) : Bool :=
  pre.toList.isPrefixOf s.toList

/-- Models `os.path.basename`: the part of the path after the last slash. -/
def basename (p : String) : String :=
  String.mk ((p.data.reverse.takeWhile (fun c => !(c == '/'))).reverse)

/-! ### Option resolution -/

/-- Modelled from the spec: `get_build_option` is defined in
bigmess/cmdline/helpers.py, which is not among the source files under src/.
The spec (section 4.1) gives: an explicit value (sentinel: unspecified) wins,
else the per-family configuration key `"<family> <optionName>"`, else the
caller-supplied default.  `cfgv` is the build-section configuration lookup. -/
def get_build_option (cfgv : String → Option String) (optname : String)
    (explicit : Option String) (family : String) (dflt : String) : String :=
  match explicit with
  | some v => v
  | none =>
    match cfgv (family ++ " " ++ optname) with
    | some v => v
    | none => dflt

/-- Lines 147-149 of cmd_build_pkg_condor.py: if `source_include is None`,
replace it by `cfg.get('build', '%s source include' % family, default=False)`;
otherwise keep it unchanged. -/
def resolveSourceInclude (cfgv : String → Option String) (source_include : PyVal)
    (family : String) : PyVal :=
  match source_include with
  | PyVal.none =>
    match cfgv (family ++ " source include") with
    | some s => PyVal.str s
    | Option.none => PyVal.bfalse
  | v => v

/-- The source-include value an environment computes when nothing is carried
over: a fresh per-family configuration lookup starting from `None`. -/
def freshSI (cfgv : String → Option String) (family : String) : PyVal :=
  resolveSourceInclude cfgv PyVal.none family

/-! ### The token-rewriting loop (lines 77-111)

One iteration of the `while i < len(sys.argv)` loop is a step: it inspects
`sys.argv[i]`, appends zero or one token to `argv`, and advances `i` (several
of the source `i += 1` increments may happen in one iteration).  `stepFn`
returns the next index together with the appended tokens. -/

/-- The inner `while` of the first `--arch` arm (lines 87-88):
`while i < len(sys.argv) - 1 and not sys.argv[i+1].startswith('-'): i += 1`.
Fuel-indexed so that it is structurally recursive; `archSkip` below supplies
enough fuel for the loop to run to completion. -/
def archSkipAux (toks : List String) : Nat → Nat → Nat
  | 0, i => i
  | fuel + 1, i =>
    if i < toks.length - 1 ∧ pyStartswith (toks.getD (i + 1) "") "-" = false then
      archSkipAux toks fuel (i + 1)
    else i

/-- Final index of the inner `--arch` value-consuming loop started at `i`.
The loop advances `i` at most until `toks.length - 1`, so `toks.length` fuel
always suffices. -/
def archSkip (toks : List String) (i : Nat) : Nat :=
  archSkipAux toks toks.length i

/-- One iteration of the rewriting loop, as a function of the inspected token
`av = sys.argv[i]`: the next loop index and the tokens appended to `argv`.
The branch structure copies lines 81-110, including the second, duplicated
`--arch` arm (lines 89-91). -/
def stepFnAv (toks : List String) (i : Nat) (av : String) : Nat × List String :=
  if av = "--env" then (i + 3, [])
  else if av = "--arch" then (archSkip toks (i + 1) + 1, [])
  else if av = "--arch" then (i + 2, [])
  else if av = "--" then (i + 1, [])
  else if pyStartswith av "--condor-" then (i + 2, [])
  else if pyStartswith av "--build-basedir" then (i + 2, [])
  else if av = "--backport" then (i + 1, [])
  else if av = "--source-include" then (i + 1, [])
  else if av = "build_pkg_condor" then (i + 1, ["build_pkg"])
  else (i + 1, [av])

/-- One iteration of the rewriting loop at index `i`. -/
def stepFn (toks : List String) (i : Nat) : Nat × List String :=
  stepFnAv toks i (toks.getD i "")

/-- Index after the iteration at `i`. -/
def stepNext (toks : List String) (i : Nat) : Nat := (stepFn toks i).1

/-- Tokens appended by the iteration at `i`. -/
def stepEmit (toks : List String) (i : Nat) : List String := (stepFn toks i).2

/-- A token that matches none of the classification arms and is passed
through unchanged by the final `else` (lines 108-110). -/
def genericTok (av : String) : Bool :=
  !(av == "--env" || av == "--arch" || av == "--" ||
    pyStartswith av "--condor-" || pyStartswith av "--build-basedir" ||
    av == "--backport" || av == "--source-include" || av == "build_pkg_condor")

/-- Trace of the rewriting loop from index `i`: the list of
(visited index, tokens appended there) pairs, fuel-indexed. -/
def scanAux (toks : List String) : Nat → Nat → List (Nat × List String)
  | 0, _ => []
  | fuel + 1, i =>
    if i < toks.length then (i, stepEmit toks i) :: scanAux toks fuel (stepNext toks i)
    else []

/-- Trace of the rewriting loop from index `i`; `stepNext` always advances,
so `toks.length - i` fuel suffices. -/
def scan (toks : List String) (i : Nat) : List (Nat × List String) :=
  scanAux toks (toks.length - i) i

/-- The `argv` list built by the loop from index `i` onward. -/
def rewriteFrom (toks : List String) (i : Nat) : List String :=
  (scan toks i).flatMap Prod.snd

/-- The indices at which the loop body executes, from index `i` onward.
An index of the original invocation that is not visited was consumed as the
value of a preceding flag. -/
def visited (toks : List String) (i : Nat) : List Nat :=
  (scan toks i).map Prod.fst

/-- The full rewritten `argv` (the loop started at index 0). -/
def rewriteArgv (toks : List String) : List String := rewriteFrom toks 0

/-- Lines 112-114 and 176: after `dsc_fname = argv[-1]; argv = argv[:-1]`,
each job forwards `argv[1:]` — everything between the executable slot and the
descriptor slot. -/
def forwardedTemplate (toks : List String) : List String :=
  ((rewriteArgv toks).dropLast).drop 1

/-! ### The rewriting loop without the duplicated `--arch` arm

The source contains two consecutive arms with the identical condition
`av == '--arch'` (lines 84-91).  `stepFnAvLive` is the same classification
with the second of the two arms removed; the development proves the two
loops have identical behaviour on every input. -/

/-- `stepFnAv` with the duplicated second `--arch` arm (lines 89-91) removed. -/
def stepFnAvLive (toks : List String) (i : Nat) (av : String) : Nat × List String :=
  if av = "--env" then (i + 3, [])
  else if av = "--arch" then (archSkip toks (i + 1) + 1, [])
  else if av = "--" then (i + 1, [])
  else if pyStartswith av "--condor-" then (i + 2, [])
  else if pyStartswith av "--build-basedir" then (i + 2, [])
  else if av = "--backport" then (i + 1, [])
  else if av = "--source-include" then (i + 1, [])
  else if av = "build_pkg_condor" then (i + 1, ["build_pkg"])
  else (i + 1, [av])

/-- One iteration of the single-arm loop at index `i`. -/
def stepFnLive (toks : List String) (i : Nat) : Nat × List String :=
  stepFnAvLive toks i (toks.getD i "")

/-- Trace of the single-arm loop. -/
def scanAuxLive (toks : List String) : Nat → Nat → List (Nat × List String)
  | 0, _ => []
  | fuel + 1, i =>
    if i < toks.length then
      (i, (stepFnLive toks i).2) :: scanAuxLive toks fuel (stepFnLive toks i).1
    else []

/-- The `argv` list built by the single-arm loop from index `i`. -/
def rewriteFromLive (toks : List String) (i : Nat) : List String :=
  (scanAuxLive toks (toks.length - i) i).flatMap Prod.snd

/-! ### The job-matrix expansion loop (lines 137-198) -/

/-- One submitted job, restricted to the observables the claims are about:
the environment triple, this job's `--source-include` value, and the
rewritten remote argument list. -/
structure Job where
  family : String
  codename : String
  arch : String
  srcIncl : String
  arguments : List String
  deriving DecidableEq, Repr

/-- Lines 176-183: the remote argument list of one job — the forwarded
template `argv[1:]` followed by the concrete environment, build basedir,
architecture, chroot basedir, this job's source-include value, `--`, and the
basename of the distribution descriptor. -/
def jobArguments (tmpl : List String) (family codename arch srcIncl dscBase : String) :
    List String :=
  tmpl ++ ["--env", family, codename, "--build-basedir", "buildbase", "--arch", arch,
    "--chroot-basedir", ".", "--source-include", srcIncl, "--"] ++ [dscBase]

/-- The inner `for arch in archs` loop (lines 165-196): `src_incl` is `'yes'`
exactly when `source_include` is truthy and `first_arch` still holds;
`first_arch` is set to `False` after the first iteration and
`source_include` itself does not change inside this loop. -/
def archLoop (tmpl : List String) (family codename dscBase : String)
    (source_include : PyVal) : Bool → List String → List Job
  | _, [] => []
  | first_arch, arch :: rest =>
    let src_incl := if source_include.truthy && first_arch then "yes" else "no"
    { family := family, codename := codename, arch := arch, srcIncl := src_incl,
      arguments := jobArguments tmpl family codename arch src_incl dscBase } ::
      archLoop tmpl family codename dscBase source_include false rest

/-- The outer `for family, codename in args.env` loop (lines 138-198).
Parameters model the collaborators: `backportDsc` is `_backport_dsc`
(line 142), `cfgv` the build-section configuration, `archsOf` the resolved
architecture list per family (lines 161-164, through `get_build_option` and
the string split).  Entering a new environment: if backporting, the
descriptor is re-made and `source_include` is reset to the request-level
value (line 144); a `None` value is then replaced by the per-family
configuration (lines 147-149).  After an environment finishes,
`source_include` is set to `False` (line 198) before the next iteration. -/
def envLoop (tmpl : List String) (dscFname : String) (backport : Bool) (argsSI : PyVal)
    (backportDsc : String → String → String) (cfgv : String → Option String)
    (archsOf : String → List String) : PyVal → List (String × String) → List Job
  | _, [] => []
  | source_include, (family, codename) :: rest =>
    let si0 := if backport then argsSI else source_include
    let dist_dsc_fname := if backport then backportDsc family codename else dscFname
    let si1 := resolveSourceInclude cfgv si0 family
    archLoop tmpl family codename (basename dist_dsc_fname) si1 true (archsOf family) ++
      envLoop tmpl dscFname backport argsSI backportDsc cfgv archsOf PyVal.bfalse rest

/-- The whole expansion: line 137 initializes the threaded `source_include`
with the request-level value before the environment loop starts. -/
def runJobs (tmpl : List String) (dscFname : String) (backport : Bool) (argsSI : PyVal)
    (backportDsc : String → String → String) (cfgv : String → Option String)
    (archsOf : String → List String) (envs : List (String × String)) : List Job :=
  envLoop tmpl dscFname backport argsSI backportDsc cfgv archsOf argsSI envs

/-- The source-include value each environment starts its architecture run
with: the same state threading as `envLoop`, projected to the value of
`source_include` right after lines 140-149 have run for that environment. -/
def envStartSIs (backport : Bool) (argsSI : PyVal) (cfgv : String → Option String) :
    PyVal → List (String × String) → List PyVal
  | _, [] => []
  | source_include, (family, _) :: rest =>
    resolveSourceInclude cfgv (if backport then argsSI else source_include) family ::
      envStartSIs backport argsSI cfgv PyVal.bfalse rest

/-! ### Submission (lines 200-203) -/

/-- The message of the `RuntimeError` raised on line 203, with the full
submission document interpolated by the `%s`. -/
def submitFailureMsg (submit : String) : String :=
  "could not submit build; SPEC follows\n---\n" ++ submit ++ "---\n)"

/-- Lines 200-203: after piping the document to `condor_submit`, a truthy
(that is, nonzero) `wait()` status raises the `RuntimeError`; a zero status
falls off the end of `run` normally. -/
def condorSubmitFinish (waitCode : Int) (submit : String) : Except String Unit :=
  if waitCode ≠ 0 then Except.error (submitFailureMsg submit) else Except.ok ()

/-! ### Log-directory creation (lines 158-160)

The filesystem is modelled as the set of existing directories, each a list of
path components.  `makedirs` models `os.makedirs`: it creates the target
directory and every ancestor.  `ensureLogdir` is the guarded call
`if not os.path.exists(logdir): os.makedirs(logdir)`. -/

/-- Every nonempty ancestor chain of a path: `[p1]`, `[p1, p2]`, ..., `p`. -/
def dirChain (p : List String) : List (List String) :=
  (List.range p.length).map (fun k => p.take (k + 1))

/-- Models `os.makedirs`: recursive creation of the directory and all its
ancestors. -/
def makedirs (fs : List (List String)) (p : List String) : List (List String) :=
  dirChain p ++ fs

/-- Lines 159-160: create the log directory only when it does not exist. -/
def ensureLogdir (fs : List (List String)) (p : List String) : List (List String) :=
  if p ∈ fs then fs else makedirs fs p

/-! ### Basic lemmas about the rewriting loop -/

theorem archSkipAux_ge (toks : List String) : ∀ fuel i, i ≤ archSkipAux toks fuel i := by
  intro fuel
  induction fuel with
  | zero => intro i; exact Nat.le_refl i
  | succ n ih =>
    intro i
    simp only [archSkipAux]
    split
    · exact Nat.le_trans (Nat.le_succ i) (ih (i + 1))
    · exact Nat.le_refl i

theorem archSkip_ge (toks : List String) (i : Nat) : i ≤ archSkip toks i :=
  archSkipAux_ge toks toks.length i

/-- Every loop iteration strictly advances the index. -/
theorem stepNext_gt (toks : List String) (i : Nat) : i < stepNext toks i := by
  have h := archSkip_ge toks (i + 1)
  simp only [stepNext, stepFn, stepFnAv]
  split_ifs <;> dsimp only <;> omega

/-- Any two sufficient fuels give the same trace. -/
theorem scanAux_irrel (toks : List String) :
    ∀ fuel fuel2 i, toks.length - i ≤ fuel → toks.length - i ≤ fuel2 →
      scanAux toks fuel i = scanAux toks fuel2 i := by
  intro fuel
  induction fuel with
  | zero =>
    intro fuel2 i h1 _
    have hi : ¬ i < toks.length := by omega
    cases fuel2 with
    | zero => rfl
    | succ m => simp [scanAux, hi]
  | succ n ih =>
    intro fuel2 i h1 h2
    by_cases hi : i < toks.length
    · cases fuel2 with
      | zero => omega
      | succ m =>
        simp only [scanAux, if_pos hi]
        have hnext := stepNext_gt toks i
        rw [ih m (stepNext toks i) (by omega) (by omega)]
    · cases fuel2 with
      | zero => simp [scanAux, hi]
      | succ m => simp [scanAux, hi]

theorem scan_cons (toks : List String) (i : Nat) (hi : i < toks.length) :
    scan toks i = (i, stepEmit toks i) :: scan toks (stepNext toks i) := by
  have h1 : toks.length - i = (toks.length - i - 1) + 1 := by omega
  have hnext := stepNext_gt toks i
  simp only [scan]
  rw [h1]
  simp only [scanAux, if_pos hi]
  rw [scanAux_irrel toks (toks.length - i - 1) (toks.length - stepNext toks i)
    (stepNext toks i) (by omega) (by omega)]

theorem scan_nil (toks : List String) (i : Nat) (hi : ¬ i < toks.length) :
    scan toks i = [] := by
  have h : toks.length - i = 0 := by omega
  simp only [scan, h, scanAux]

theorem rewriteFrom_cons (toks : List String) (i : Nat) (hi : i < toks.length) :
    rewriteFrom toks i = stepEmit toks i ++ rewriteFrom toks (stepNext toks i) := by
  simp only [rewriteFrom, scan_cons toks i hi, List.flatMap_cons]

theorem rewriteFrom_nil (toks : List String) (i : Nat) (hi : ¬ i < toks.length) :
    rewriteFrom toks i = [] := by
  simp only [rewriteFrom, scan_nil toks i hi, List.flatMap_nil]

theorem visited_cons (toks : List String) (i : Nat) (hi : i < toks.length) :
    visited toks i = i :: visited toks (stepNext toks i) := by
  simp only [visited, scan_cons toks i hi, List.map_cons]

theorem visited_nil (toks : List String) (i : Nat) (hi : ¬ i < toks.length) :
    visited toks i = [] := by
  simp only [visited, scan_nil toks i hi, List.map_nil]

/-- Visited indices lie between the start index and the list length. -/
theorem visited_mem_bounds (toks : List String) :
    ∀ n i j, toks.length - i ≤ n → j ∈ visited toks i → i ≤ j ∧ j < toks.length := by
  intro n
  induction n with
  | zero =>
    intro i j hle hmem
    rw [visited_nil toks i (by omega)] at hmem
    cases hmem
  | succ n ih =>
    intro i j hle hmem
    by_cases hi : i < toks.length
    · rw [visited_cons toks i hi] at hmem
      rcases List.mem_cons.mp hmem with h | h
      · omega
      · have hnext := stepNext_gt toks i
        have := ih (stepNext toks i) j (by omega) h
        omega
    · rw [visited_nil toks i hi] at hmem
      cases hmem

/-- If `p` and `q` are both visited from `i` and `q < p`, then `p` is still
visited after the iteration at `q`. -/
theorem visited_mem_after (toks : List String) :
    ∀ n i p q, toks.length - i ≤ n → p ∈ visited toks i → q ∈ visited toks i →
      q < p → p ∈ visited toks (stepNext toks q) := by
  intro n
  induction n with
  | zero =>
    intro i p q hle hp _ _
    rw [visited_nil toks i (by omega)] at hp
    cases hp
  | succ n ih =>
    intro i p q hle hp hq hlt
    by_cases hi : i < toks.length
    · have hnext := stepNext_gt toks i
      rw [visited_cons toks i hi] at hp hq
      rcases List.mem_cons.mp hq with hq1 | hq2
      · rcases List.mem_cons.mp hp with hp1 | hp2
        · omega
        · rw [hq1]
          exact hp2
      · have hqb := visited_mem_bounds toks n (stepNext toks i) q (by omega) hq2
        rcases List.mem_cons.mp hp with hp1 | hp2
        · omega
        · exact ih (stepNext toks i) p q (by omega) hp2 hq2 hlt
    · rw [visited_nil toks i hi] at hp
      cases hp

/-- The output from `i` decomposes at any visited index `p`: what was emitted
before `p` is a prefix of the output. -/
theorem rewriteFrom_decomp (toks : List String) :
    ∀ n i p, toks.length - i ≤ n → p ∈ visited toks i →
      ∃ pre, rewriteFrom toks i = pre ++ rewriteFrom toks p := by
  intro n
  induction n with
  | zero =>
    intro i p hle hp
    rw [visited_nil toks i (by omega)] at hp
    cases hp
  | succ n ih =>
    intro i p hle hp
    by_cases hi : i < toks.length
    · rw [visited_cons toks i hi] at hp
      rcases List.mem_cons.mp hp with h | h
      · rw [← h]
        exact ⟨[], (List.nil_append _).symm⟩
      · have hnext := stepNext_gt toks i
        obtain ⟨pre, hpre⟩ := ih (stepNext toks i) p (by omega) h
        refine ⟨stepEmit toks i ++ pre, ?_⟩
        rw [rewriteFrom_cons toks i hi, hpre, List.append_assoc]
    · rw [visited_nil toks i hi] at hp
      cases hp

/-! ### Behaviour of single iterations at the various flags -/

theorem stepFn_env (toks : List String) (i : Nat) (h : toks.getD i "" = "--env") :
    stepFn toks i = (i + 3, []) := by
  simp only [stepFn, h]
  rfl

theorem stepFn_arch (toks : List String) (i : Nat) (h : toks.getD i "" = "--arch") :
    stepFn toks i = (archSkip toks (i + 1) + 1, []) := by
  simp only [stepFn, h]
  rfl

theorem stepFn_sourceInclude (toks : List String) (i : Nat)
    (h : toks.getD i "" = "--source-include") : stepFn toks i = (i + 1, []) := by
  simp only [stepFn, h]
  rfl

/-- A token matching no classification arm is forwarded unchanged and the
index advances by one. -/
theorem stepFn_generic (toks : List String) (i : Nat)
    (h : genericTok (toks.getD i "") = true) :
    stepFn toks i = (i + 1, [toks.getD i ""]) := by
  simp only [stepFn, stepFnAv]
  split_ifs <;> first | rfl | simp_all [genericTok]

/-- Whatever one iteration appends, it is neither the environment-selection
nor the architecture-selection flag. -/
theorem stepEmit_mem_ne (toks : List String) (i : Nat) (x : String)
    (hx : x ∈ stepEmit toks i) : x ≠ "--env" ∧ x ≠ "--arch" := by
  simp only [stepEmit, stepFn, stepFnAv] at hx
  split_ifs at hx <;> simp_all

/-- The two matrix-level selection flags never survive into the rewritten
argument vector. -/
theorem rewriteFrom_no_env_arch (toks : List String) :
    ∀ n i, toks.length - i ≤ n →
      "--env" ∉ rewriteFrom toks i ∧ "--arch" ∉ rewriteFrom toks i := by
  intro n
  induction n with
  | zero =>
    intro i hle
    rw [rewriteFrom_nil toks i (by omega)]
    simp
  | succ n ih =>
    intro i hle
    by_cases hi : i < toks.length
    · have hnext := stepNext_gt toks i
      have ihn := ih (stepNext toks i) (by omega)
      rw [rewriteFrom_cons toks i hi]
      constructor <;> intro hmem <;> rcases List.mem_append.mp hmem with h | h
      · exact (stepEmit_mem_ne toks i _ h).1 rfl
      · exact ihn.1 h
      · exact (stepEmit_mem_ne toks i _ h).2 rfl
      · exact ihn.2 h
    · rw [rewriteFrom_nil toks i hi]
      simp

/-! ### The duplicated `--arch` arm is dead -/

theorem stepFnAv_eq_live (toks : List String) (i : Nat) (av : String) :
    stepFnAv toks i av = stepFnAvLive toks i av := by
  simp only [stepFnAv, stepFnAvLive]
  split_ifs <;> rfl

theorem stepFn_eq_live (toks : List String) (i : Nat) :
    stepFn toks i = stepFnLive toks i :=
  stepFnAv_eq_live toks i (toks.getD i "")

theorem scanAux_eq_live (toks : List String) :
    ∀ fuel i, scanAux toks fuel i = scanAuxLive toks fuel i := by
  intro fuel
  induction fuel with
  | zero => intro i; rfl
  | succ n ih =>
    intro i
    simp only [scanAux, scanAuxLive, stepEmit, stepNext, stepFn_eq_live, ih]

theorem rewriteFrom_eq_live (toks : List String) (i : Nat) :
    rewriteFrom toks i = rewriteFromLive toks i := by
  simp only [rewriteFrom, rewriteFromLive, scan, scanAux_eq_live]

/-! ### Lemmas about the job-expansion loops -/

theorem archLoop_map_arch (tmpl : List String) (f c d : String) (si : PyVal) :
    ∀ (b : Bool) (archs : List String),
      (archLoop tmpl f c d si b archs).map Job.arch = archs := by
  intro b archs
  induction archs generalizing b with
  | nil => rfl
  | cons a rest ih => simp [archLoop, ih]

theorem archLoop_map_triple (tmpl : List String) (f c d : String) (si : PyVal) :
    ∀ (b : Bool) (archs : List String),
      (archLoop tmpl f c d si b archs).map (fun j => (j.family, j.codename, j.arch)) =
        archs.map (fun a => (f, c, a)) := by
  intro b archs
  induction archs generalizing b with
  | nil => rfl
  | cons a rest ih => simp [archLoop, ih]

theorem archLoop_length (tmpl : List String) (f c d : String) (si : PyVal)
    (b : Bool) (archs : List String) :
    (archLoop tmpl f c d si b archs).length = archs.length := by
  have h := congrArg List.length (archLoop_map_arch tmpl f c d si b archs)
  simpa using h

/-- Once `first_arch` is `False`, every remaining job of the environment gets
source-include `'no'`. -/
theorem archLoop_false_all_no (tmpl : List String) (f c d : String) (si : PyVal) :
    ∀ archs : List String,
      ((archLoop tmpl f c d si false archs).all (fun j => j.srcIncl == "no")) = true := by
  intro archs
  induction archs with
  | nil => rfl
  | cons a rest ih => simp [archLoop, ih]

theorem all_no_countP_yes (l : List Job)
    (h : (l.all (fun j => j.srcIncl == "no")) = true) :
    l.countP (fun j => j.srcIncl == "yes") = 0 := by
  induction l with
  | nil => rfl
  | cons j rest ih =>
    simp only [List.all_cons, Bool.and_eq_true, beq_iff_eq] at h
    simp [List.countP_cons, h.1, ih (by simpa using h.2)]

theorem archLoop_args_mem (tmpl : List String) (f c d : String) (si : PyVal)
    (v : String) (hv : v ∈ tmpl) :
    ∀ (b : Bool) (archs : List String),
      ((archLoop tmpl f c d si b archs).all (fun j => decide (v ∈ j.arguments))) = true := by
  intro b archs
  induction archs generalizing b with
  | nil => rfl
  | cons a rest ih => simp [archLoop, jobArguments, ih, hv]

theorem envLoop_cons (tmpl : List String) (dscFname : String) (backport : Bool)
    (argsSI : PyVal) (backportDsc : String → String → String)
    (cfgv : String → Option String) (archsOf : String → List String) (si : PyVal)
    (f c : String) (rest : List (String × String)) :
    envLoop tmpl dscFname backport argsSI backportDsc cfgv archsOf si ((f, c) :: rest) =
      archLoop tmpl f c (basename (if backport then backportDsc f c else dscFname))
        (resolveSourceInclude cfgv (if backport then argsSI else si) f) true (archsOf f) ++
      envLoop tmpl dscFname backport argsSI backportDsc cfgv archsOf PyVal.bfalse rest := rfl

theorem envLoop_args_mem (tmpl : List String) (dscFname : String) (backport : Bool)
    (argsSI : PyVal) (backportDsc : String → String → String)
    (cfgv : String → Option String) (archsOf : String → List String)
    (v : String) (hv : v ∈ tmpl) :
    ∀ (si : PyVal) (envs : List (String × String)),
      ((envLoop tmpl dscFname backport argsSI backportDsc cfgv archsOf si envs).all
        (fun j => decide (v ∈ j.arguments))) = true := by
  intro si envs
  induction envs generalizing si with
  | nil => rfl
  | cons e rest ih =>
    obtain ⟨f, c⟩ := e
    rw [envLoop_cons]
    simp [List.all_append, archLoop_args_mem tmpl f c _ _ v hv, ih]

/-- With backporting off, a run entered with the reset value `False` gives
every one of its environments the start value `False`: the per-family
configuration is not consulted. -/
theorem envStartSIs_from_bfalse (argsSI : PyVal) (cfgv : String → Option String) :
    ∀ rest : List (String × String),
      envStartSIs false argsSI cfgv PyVal.bfalse rest =
        rest.map (fun _ => PyVal.bfalse) := by
  intro rest
  induction rest with
  | nil => rfl
  | cons e rest ih =>
    obtain ⟨f, c⟩ := e
    simp [envStartSIs, resolveSourceInclude, ih]

/-- Whatever is in the per-job forwarded slice `argv[1:]` was in the full
rewritten vector. -/
theorem mem_of_mem_forwardedTemplate (toks : List String) (a : String)
    (h : a ∈ forwardedTemplate toks) : a ∈ rewriteArgv toks := by
  have h1 := List.drop_subset 1 ((rewriteArgv toks).dropLast) h
  rw [List.dropLast_eq_take] at h1
  exact List.take_subset _ _ h1

/-- An element strictly inside a list (nonempty part before and after it)
survives dropping the last element and the first element. -/
theorem mem_dropLast_drop_of_decomp {α : Type} (L P M : List α) (v : α)
    (hL : L = P ++ v :: M) (hP : P ≠ []) (hM : M ≠ []) :
    v ∈ (L.dropLast).drop 1 := by
  subst hL
  obtain ⟨x, P2, rfl⟩ := List.exists_cons_of_ne_nil hP
  obtain ⟨y, M2, rfl⟩ := List.exists_cons_of_ne_nil hM
  have h1 : ((x :: P2) ++ v :: y :: M2).dropLast =
      (x :: P2) ++ v :: (y :: M2).dropLast := by
    rw [List.dropLast_append_cons, List.dropLast_cons₂]
  rw [h1]
  simp [List.mem_append]

/-- The environment loop emits exactly the environment-major,
architecture-minor cross product of triples. -/
theorem envLoop_map_triple (tmpl : List String) (dscFname : String) (backport : Bool)
    (argsSI : PyVal) (backportDsc : String → String → String)
    (cfgv : String → Option String) (archsOf : String → List String) :
    ∀ (si : PyVal) (envs : List (String × String)),
      (envLoop tmpl dscFname backport argsSI backportDsc cfgv archsOf si envs).map
          (fun j => (j.family, j.codename, j.arch)) =
        envs.flatMap (fun e => (archsOf e.1).map (fun a => (e.1, e.2, a))) := by
  intro si envs
  induction envs generalizing si with
  | nil => rfl
  | cons e rest ih =>
    obtain ⟨f, c⟩ := e
    rw [envLoop_cons]
    simp [archLoop_map_triple, ih]

theorem envLoop_length (tmpl : List String) (dscFname : String) (backport : Bool)
    (argsSI : PyVal) (backportDsc : String → String → String)
    (cfgv : String → Option String) (archsOf : String → List String) :
    ∀ (si : PyVal) (envs : List (String × String)),
      (envLoop tmpl dscFname backport argsSI backportDsc cfgv archsOf si envs).length =
        (envs.map (fun e => (archsOf e.1).length)).sum := by
  intro si envs
  induction envs generalizing si with
  | nil => rfl
  | cons e rest ih =>
    obtain ⟨f, c⟩ := e
    rw [envLoop_cons]
    simp [archLoop_length, ih]

/-- A nonempty path is among the directories `makedirs` creates. -/
theorem self_mem_makedirs (fs : List (List String)) (p : List String) (hne : p ≠ []) :
    p ∈ makedirs fs p := by
  have hlen : 0 < p.length := List.length_pos.mpr hne
  refine List.mem_append.mpr (Or.inl ?_)
  refine List.mem_map.mpr ⟨p.length - 1, List.mem_range.mpr (by omega), ?_⟩
  rw [show p.length - 1 + 1 = p.length from by omega, List.take_length]

/-! ### Claim theorems -/

/-- C2: within any one environment processed by the run, the emitted jobs
carry the resolved architecture list in order, every job after the first one
has source-include `no`, and at most one job — necessarily the one for the
first architecture — has source-include `yes`.  `archLoop` entered with
`first_arch = True` is exactly the per-environment architecture run that
`envLoop` performs, for any entering source-include state `si`. -/
theorem source_sent_at_most_once_per_env (tmpl : List String) (f c d : String)
    (si : PyVal) (archs : List String) :
    (archLoop tmpl f c d si true archs).map Job.arch = archs ∧
    ((archLoop tmpl f c d si true archs).tail.all (fun j => j.srcIncl == "no")) = true ∧
    (archLoop tmpl f c d si true archs).countP (fun j => j.srcIncl == "yes") ≤ 1 := by
  refine ⟨archLoop_map_arch tmpl f c d si true archs, ?_, ?_⟩
  · cases archs with
    | nil => rfl
    | cons a rest =>
      simpa [archLoop] using archLoop_false_all_no tmpl f c d si rest
  · cases archs with
    | nil => simp [archLoop]
    | cons a rest =>
      have h0 := all_no_countP_yes _ (archLoop_false_all_no tmpl f c d si rest)
      simp only [archLoop, List.countP_cons, h0]
      split_ifs <;> omega

/-- C3: over a whole run, the expander emits exactly the sum, over requested
environments, of the lengths of their resolved architecture lists, and the
emitted (family, codename, architecture) triples are, in order, the
environment-major architecture-minor cross product. -/
theorem job_matrix_count_and_order (tmpl : List String) (dscFname : String)
    (backport : Bool) (argsSI : PyVal) (backportDsc : String → String → String)
    (cfgv : String → Option String) (archsOf : String → List String)
    (envs : List (String × String)) :
    (runJobs tmpl dscFname backport argsSI backportDsc cfgv archsOf envs).map
        (fun j => (j.family, j.codename, j.arch)) =
      envs.flatMap (fun e => (archsOf e.1).map (fun a => (e.1, e.2, a))) ∧
    (runJobs tmpl dscFname backport argsSI backportDsc cfgv archsOf envs).length =
      (envs.map (fun e => (archsOf e.1).length)).sum :=
  ⟨envLoop_map_triple tmpl dscFname backport argsSI backportDsc cfgv archsOf argsSI envs,
   envLoop_length tmpl dscFname backport argsSI backportDsc cfgv archsOf argsSI envs⟩

/-- C4: the environment-selection and architecture-selection flags of the
original invocation never survive the rewrite (neither into the full vector
nor into the per-job forwarded slice); the `--env` arm drops the flag and
exactly its two trailing values — the next two indices are never visited —
and the `--arch` arm drops the flag together with its value run, emitting
nothing. -/
theorem env_arch_never_forwarded (toks : List String) (p : Nat) :
    "--env" ∉ rewriteArgv toks ∧ "--arch" ∉ rewriteArgv toks ∧
    "--env" ∉ forwardedTemplate toks ∧ "--arch" ∉ forwardedTemplate toks ∧
    (toks.getD p "" = "--env" → stepNext toks p = p + 3 ∧ stepEmit toks p = []) ∧
    (toks.getD p "" = "--arch" →
      stepNext toks p = archSkip toks (p + 1) + 1 ∧ stepEmit toks p = []) ∧
    (p ∈ visited toks 0 → toks.getD p "" = "--env" →
      p + 1 ∉ visited toks 0 ∧ p + 2 ∉ visited toks 0) := by
  have hno := rewriteFrom_no_env_arch toks toks.length 0 (by omega)
  refine ⟨hno.1, hno.2, fun h => hno.1 (mem_of_mem_forwardedTemplate toks _ h),
    fun h => hno.2 (mem_of_mem_forwardedTemplate toks _ h), ?_, ?_, ?_⟩
  · intro h
    exact ⟨by simp [stepNext, stepFn_env toks p h], by simp [stepEmit, stepFn_env toks p h]⟩
  · intro h
    exact ⟨by simp [stepNext, stepFn_arch toks p h], by simp [stepEmit, stepFn_arch toks p h]⟩
  · intro hp he
    have hnext : stepNext toks p = p + 3 := by simp [stepNext, stepFn_env toks p he]
    constructor
    · intro hq
      have h1 := visited_mem_after toks toks.length 0 (p + 1) p (by omega) hq hp (by omega)
      rw [hnext] at h1
      have h2 := visited_mem_bounds toks toks.length (p + 3) (p + 1) (by omega) h1
      omega
    · intro hq
      have h1 := visited_mem_after toks toks.length 0 (p + 2) p (by omega) hq hp (by omega)
      rw [hnext] at h1
      have h2 := visited_mem_bounds toks toks.length (p + 3) (p + 2) (by omega) h1
      omega

/-- C6: a nonzero exit status of the scheduler submission entry point makes
the run terminate with a fatal error whose message contains the complete
assembled submission document; a zero status terminates the run normally. -/
theorem submission_failure_propagates (code : Int) (submit : String) :
    (code ≠ 0 → ∃ pre post, condorSubmitFinish code submit =
        Except.error (pre ++ submit ++ post)) ∧
    (code = 0 → condorSubmitFinish code submit = Except.ok ()) := by
  constructor
  · intro h
    exact ⟨"could not submit build; SPEC follows\n---\n", "---\n)",
      by simp [condorSubmitFinish, submitFailureMsg, h]⟩
  · intro h
    simp [condorSubmitFinish, h]

/-- C7: option resolution always yields a value and exactly one source wins:
an explicit (non-sentinel) value is returned unchanged; otherwise the
per-family configuration key `<family> <optionName>` is consulted and its
value returned when present; otherwise the caller-supplied default.  Both the
spec-modelled `get_build_option` and the in-source inline source-include
resolution (lines 147-149) follow this precedence. -/
theorem option_resolution_precedence (cfgv : String → Option String)
    (optname family dflt v s : String) (si : PyVal) :
    get_build_option cfgv optname (some v) family dflt = v ∧
    (cfgv (family ++ " " ++ optname) = some s →
      get_build_option cfgv optname Option.none family dflt = s) ∧
    (cfgv (family ++ " " ++ optname) = Option.none →
      get_build_option cfgv optname Option.none family dflt = dflt) ∧
    (si ≠ PyVal.none → resolveSourceInclude cfgv si family = si) ∧
    (cfgv (family ++ " source include") = some s →
      resolveSourceInclude cfgv PyVal.none family = PyVal.str s) ∧
    (cfgv (family ++ " source include") = Option.none →
      resolveSourceInclude cfgv PyVal.none family = PyVal.bfalse) := by
  refine ⟨rfl, ?_, ?_, ?_, ?_, ?_⟩
  · intro h
    simp [get_build_option, h]
  · intro h
    simp [get_build_option, h]
  · intro h
    cases si with
    | none => exact absurd rfl h
    | bfalse => rfl
    | str s2 => rfl
  · intro h
    simp [resolveSourceInclude, h]
  · intro h
    simp [resolveSourceInclude, h]

/-- C8: when the resolved log directory is missing it is created, together
with all its ancestors, rather than raising an error; when it already exists
nothing is mutated; the guarded creation step is idempotent. -/
theorem logdir_autocreated_idempotent (fs : List (List String)) (p : List String) :
    (p ∈ fs → ensureLogdir fs p = fs) ∧
    (p ≠ [] → p ∈ ensureLogdir fs p) ∧
    (∀ k, k < p.length → p.take (k + 1) ∈ makedirs fs p) ∧
    ensureLogdir (ensureLogdir fs p) p = ensureLogdir fs p := by
  refine ⟨?_, ?_, ?_, ?_⟩
  · intro h
    simp [ensureLogdir, h]
  · intro hne
    by_cases h : p ∈ fs
    · simp [ensureLogdir, h]
    · simpa [ensureLogdir, h] using self_mem_makedirs fs p hne
  · intro k hk
    exact List.mem_append.mpr (Or.inl (List.mem_map.mpr ⟨k, List.mem_range.mpr hk, rfl⟩))
  · by_cases h : p ∈ fs
    · simp [ensureLogdir, h]
    · rcases eq_or_ne p [] with hp | hp
      · subst hp
        simp [ensureLogdir, makedirs, dirChain]
      · have hmem : p ∈ makedirs fs p := self_mem_makedirs fs p hp
        simp [ensureLogdir, h, hmem]

/-- C9: the token-rewriting loop carries two consecutive arms with the
identical condition (token equals `--arch`); the second arm is unreachable on
every input — one loop iteration and the whole rewrite coincide with the
single-arm variant — and the behaviour at `--arch` is the first arm: drop the
flag together with its following run of non-dash value tokens, emit
nothing. -/
theorem arch_second_arm_dead (toks : List String) (i : Nat) :
    stepFn toks i = stepFnLive toks i ∧
    rewriteFrom toks i = rewriteFromLive toks i ∧
    (toks.getD i "" = "--arch" → stepFn toks i = (archSkip toks (i + 1) + 1, [])) :=
  ⟨stepFn_eq_live toks i, rewriteFrom_eq_live toks i, stepFn_arch toks i⟩

/-- Concrete configuration for the C1 counterexample: only the second
requested family has a source-include policy configured. -/
def cfgDemo : String → Option String :=
  fun k => if k = "ubuntu source include" then some "yes" else Option.none

/-- Concrete per-family architecture lists for the C1 counterexample. -/
def archsDemo : String → List String := fun _ => ["amd64"]

/-- The two requested environments of the C1 counterexample. -/
def envsDemo : List (String × String) := [("debian", "wheezy"), ("ubuntu", "precise")]

/-- C1 counterexample: with two requested environments, backporting disabled
and no explicit source-include, the second environment does not start its
architecture run with its own per-family policy (`ubuntu source include =
yes`, which is truthy): the start values are not the fresh per-family
lookups, the ubuntu job of the two-environment run gets source-include `no`,
yet the same environment processed alone gets `yes` — the value left behind
by the first environment decides. -/
theorem source_include_leaks_across_envs :
    envStartSIs false PyVal.none cfgDemo PyVal.none envsDemo ≠
      envsDemo.map (fun e => freshSI cfgDemo e.1) ∧
    (runJobs [] "pkg.dsc" false PyVal.none (fun _ _ => "pkg.dsc") cfgDemo archsDemo
        envsDemo).map Job.srcIncl = ["no", "no"] ∧
    (runJobs [] "pkg.dsc" false PyVal.none (fun _ _ => "pkg.dsc") cfgDemo archsDemo
        [("ubuntu", "precise")]).map Job.srcIncl = ["yes"] := by
  refine ⟨?_, ?_, ?_⟩ <;> decide

/-- C1 (amended): in a run with two or more requested environments,
backporting disabled and no explicit source-include value, only the first
environment starts its architecture run with the source-include value of its
own per-family configuration policy; every later environment starts with the
`False` left behind by the reset that follows the previous environment, so
its own per-family configuration is not consulted. -/
theorem first_env_fresh_later_envs_reset (tmpl : List String) (dscFname : String)
    (backportDsc : String → String → String) (cfgv : String → Option String)
    (archsOf : String → List String) (f c : String)
    (rest : List (String × String)) (_h : 1 ≤ rest.length) :
    envStartSIs false PyVal.none cfgv PyVal.none ((f, c) :: rest) =
      freshSI cfgv f :: rest.map (fun _ => PyVal.bfalse) ∧
    runJobs tmpl dscFname false PyVal.none backportDsc cfgv archsOf ((f, c) :: rest) =
      archLoop tmpl f c (basename dscFname) (freshSI cfgv f) true (archsOf f) ++
        envLoop tmpl dscFname false PyVal.none backportDsc cfgv archsOf
          PyVal.bfalse rest := by
  constructor
  · simp [envStartSIs, envStartSIs_from_bfalse, freshSI]
  · simp only [runJobs]
    rw [envLoop_cons]
    simp [freshSI]

/-- C1 amended claim at a concrete two-environment run. -/
theorem first_env_fresh_later_envs_reset_holds :
    1 ≤ ([("ubuntu", "precise")] : List (String × String)).length ∧
    (envStartSIs false PyVal.none cfgDemo PyVal.none
        (("debian", "wheezy") :: [("ubuntu", "precise")]) =
      freshSI cfgDemo "debian" ::
        ([("ubuntu", "precise")] : List (String × String)).map (fun _ => PyVal.bfalse) ∧
    runJobs [] "pkg.dsc" false PyVal.none (fun _ _ => "pkg.dsc") cfgDemo archsDemo
        (("debian", "wheezy") :: [("ubuntu", "precise")]) =
      archLoop [] "debian" "wheezy" (basename "pkg.dsc") (freshSI cfgDemo "debian") true
          (archsDemo "debian") ++
        envLoop [] "pkg.dsc" false PyVal.none (fun _ _ => "pkg.dsc") cfgDemo archsDemo
          PyVal.bfalse [("ubuntu", "precise")]) :=
  ⟨by decide, first_env_fresh_later_envs_reset [] "pkg.dsc" (fun _ _ => "pkg.dsc") cfgDemo
    archsDemo "debian" "wheezy" [("ubuntu", "precise")] (by decide)⟩

/-- C5 counterexample: for the invocation
`build_pkg_condor --arch amd64 pkg.dsc`, the final token `pkg.dsc` is
consumed as part of the `--arch` value run: the rewritten vector is just
`[build_pkg]`, so the descriptor split takes `build_pkg`, not the final
token of the sequence. -/
theorem final_token_eaten_by_arch_values :
    rewriteArgv ["build_pkg_condor", "--arch", "amd64", "pkg.dsc"] = ["build_pkg"] ∧
    (rewriteArgv ["build_pkg_condor", "--arch", "amd64", "pkg.dsc"]).getLast? ≠
      some "pkg.dsc" := by
  constructor <;> decide

/-- C5 (amended): whenever the scan visits the final token position (that is,
the final token is not consumed as part of the value run of a preceding
flag) and the final token matches no classification arm, the final token is
the last element of the rewritten vector, it is split off as the source
package descriptor path, and the per-job forwarded slice is everything
strictly between the executable slot and it — the final token is never
forwarded as a generic token.  When an `--arch` value run immediately
precedes the final token, the premise fails: the final token is consumed and
dropped, as the counterexample shows. -/
theorem final_token_split_off (toks : List String)
    (h1 : toks.length - 1 ∈ visited toks 0)
    (h2 : genericTok (toks.getD (toks.length - 1) "") = true) :
    ∃ pre, rewriteArgv toks = pre ++ [toks.getD (toks.length - 1) ""] ∧
      (rewriteArgv toks).getLast? = some (toks.getD (toks.length - 1) "") ∧
      forwardedTemplate toks = pre.drop 1 := by
  have hb := visited_mem_bounds toks toks.length 0 (toks.length - 1) (by omega) h1
  obtain ⟨pre, hpre⟩ :=
    rewriteFrom_decomp toks toks.length 0 (toks.length - 1) (by omega) h1
  have hstep := stepFn_generic toks (toks.length - 1) h2
  have hcons := rewriteFrom_cons toks (toks.length - 1) (by omega)
  have hemit : stepEmit toks (toks.length - 1) = [toks.getD (toks.length - 1) ""] := by
    simp [stepEmit, hstep]
  have hnext : stepNext toks (toks.length - 1) = toks.length - 1 + 1 := by
    simp [stepNext, hstep]
  rw [hemit, hnext] at hcons
  have hnil : rewriteFrom toks (toks.length - 1 + 1) = [] :=
    rewriteFrom_nil toks _ (by omega)
  rw [hnil, List.append_nil] at hcons
  have hfull : rewriteArgv toks = pre ++ [toks.getD (toks.length - 1) ""] := by
    rw [rewriteArgv, hpre, hcons]
  refine ⟨pre, hfull, ?_, ?_⟩
  · rw [hfull, List.getLast?_concat]
  · rw [forwardedTemplate, hfull, List.dropLast_concat]

/-- C5 amended claim at the concrete invocation
`build_pkg_condor --backport pkg.dsc`. -/
theorem final_token_split_off_holds :
    ["build_pkg_condor", "--backport", "pkg.dsc"].length - 1 ∈
        visited ["build_pkg_condor", "--backport", "pkg.dsc"] 0 ∧
    genericTok (["build_pkg_condor", "--backport", "pkg.dsc"].getD
        (["build_pkg_condor", "--backport", "pkg.dsc"].length - 1) "") = true ∧
    ∃ pre, rewriteArgv ["build_pkg_condor", "--backport", "pkg.dsc"] =
        pre ++ [["build_pkg_condor", "--backport", "pkg.dsc"].getD
          (["build_pkg_condor", "--backport", "pkg.dsc"].length - 1) ""] ∧
      (rewriteArgv ["build_pkg_condor", "--backport", "pkg.dsc"]).getLast? =
        some (["build_pkg_condor", "--backport", "pkg.dsc"].getD
          (["build_pkg_condor", "--backport", "pkg.dsc"].length - 1) "") ∧
      forwardedTemplate ["build_pkg_condor", "--backport", "pkg.dsc"] = pre.drop 1 :=
  ⟨by decide, by decide,
    final_token_split_off ["build_pkg_condor", "--backport", "pkg.dsc"]
      (by decide) (by decide)⟩

/-- C10: the `--source-include` arm drops only the flag token itself (the
index advances by one and nothing is emitted); a following value token that
matches no classification arm is passed through unchanged immediately after,
survives into the per-job forwarded slice (given that some token was emitted
before the flag — the executable slot — and some token survives after the
value — the descriptor slot), and therefore appears in the remote argument
list of every job of a run that forwards this template. -/
theorem source_include_value_forwarded (toks : List String) (p q : Nat) (v : String)
    (dscFname : String) (backportDsc : String → String → String)
    (cfgv : String → Option String) (archsOf : String → List String)
    (backport : Bool) (argsSI : PyVal) (envs : List (String × String))
    (h1 : p ∈ visited toks 0)
    (h2 : toks.getD p "" = "--source-include")
    (h3 : p + 1 < toks.length)
    (h4 : toks.getD (p + 1) "" = v)
    (h5 : genericTok v = true)
    (h6 : rewriteFrom toks (p + 2) ≠ [])
    (h7 : q ∈ visited toks 0) (h8 : q < p) (h9 : stepEmit toks q ≠ []) :
    stepNext toks p = p + 1 ∧ stepEmit toks p = [] ∧
    rewriteFrom toks p = v :: rewriteFrom toks (p + 2) ∧
    v ∈ forwardedTemplate toks ∧
    ((runJobs (forwardedTemplate toks) dscFname backport argsSI backportDsc cfgv
        archsOf envs).all (fun j => decide (v ∈ j.arguments))) = true := by
  have hsf := stepFn_sourceInclude toks p h2
  have hnextp : stepNext toks p = p + 1 := by simp [stepNext, hsf]
  have hemitp : stepEmit toks p = [] := by simp [stepEmit, hsf]
  have hg : genericTok (toks.getD (p + 1) "") = true := by rw [h4]; exact h5
  have hsf1 := stepFn_generic toks (p + 1) hg
  have hnext1 : stepNext toks (p + 1) = p + 2 := by simp [stepNext, hsf1]
  have hemit1 : stepEmit toks (p + 1) = [v] := by
    simp only [stepEmit]
    rw [hsf1, h4]
  have hvp : rewriteFrom toks p = v :: rewriteFrom toks (p + 2) := by
    rw [rewriteFrom_cons toks p (by omega), hemitp, hnextp, List.nil_append,
      rewriteFrom_cons toks (p + 1) h3, hemit1, hnext1]
    rfl
  have hqlt := visited_mem_bounds toks toks.length 0 q (by omega) h7
  obtain ⟨preq, hpreq⟩ := rewriteFrom_decomp toks toks.length 0 q (by omega) h7
  have hpq := visited_mem_after toks toks.length 0 p q (by omega) h1 h7 h8
  obtain ⟨pre2, hpre2⟩ := rewriteFrom_decomp toks toks.length (stepNext toks q) p
    (by omega) hpq
  have hq_cons := rewriteFrom_cons toks q (by omega)
  have hfull : rewriteArgv toks =
      (preq ++ stepEmit toks q ++ pre2) ++ v :: rewriteFrom toks (p + 2) := by
    rw [rewriteArgv, hpreq, hq_cons, hpre2, hvp]
    simp [List.append_assoc]
  have hPne : preq ++ stepEmit toks q ++ pre2 ≠ [] := by
    intro hc
    rcases List.append_eq_nil.mp hc with ⟨hc1, _⟩
    rcases List.append_eq_nil.mp hc1 with ⟨_, hc3⟩
    exact h9 hc3
  have hvt : v ∈ forwardedTemplate toks := by
    rw [forwardedTemplate]
    exact mem_dropLast_drop_of_decomp (rewriteArgv toks) _ _ v hfull hPne h6
  refine ⟨hnextp, hemitp, hvp, hvt, ?_⟩
  simp only [runJobs]
  exact envLoop_args_mem (forwardedTemplate toks) dscFname backport argsSI backportDsc
    cfgv archsOf v hvt argsSI envs

/-- C10 claim at the concrete invocation
`build_pkg_condor --source-include yes pkg.dsc` with one requested
environment. -/
theorem source_include_value_forwarded_holds :
    (1 : Nat) ∈ visited ["build_pkg_condor", "--source-include", "yes", "pkg.dsc"] 0 ∧
    ["build_pkg_condor", "--source-include", "yes", "pkg.dsc"].getD 1 "" =
      "--source-include" ∧
    1 + 1 < ["build_pkg_condor", "--source-include", "yes", "pkg.dsc"].length ∧
    ["build_pkg_condor", "--source-include", "yes", "pkg.dsc"].getD (1 + 1) "" = "yes" ∧
    genericTok "yes" = true ∧
    rewriteFrom ["build_pkg_condor", "--source-include", "yes", "pkg.dsc"] (1 + 2) ≠ [] ∧
    (0 : Nat) ∈ visited ["build_pkg_condor", "--source-include", "yes", "pkg.dsc"] 0 ∧
    0 < 1 ∧
    stepEmit ["build_pkg_condor", "--source-include", "yes", "pkg.dsc"] 0 ≠ [] ∧
    (stepNext ["build_pkg_condor", "--source-include", "yes", "pkg.dsc"] 1 = 1 + 1 ∧
    stepEmit ["build_pkg_condor", "--source-include", "yes", "pkg.dsc"] 1 = [] ∧
    rewriteFrom ["build_pkg_condor", "--source-include", "yes", "pkg.dsc"] 1 =
      "yes" :: rewriteFrom ["build_pkg_condor", "--source-include", "yes", "pkg.dsc"]
        (1 + 2) ∧
    "yes" ∈ forwardedTemplate ["build_pkg_condor", "--source-include", "yes", "pkg.dsc"] ∧
    ((runJobs
        (forwardedTemplate ["build_pkg_condor", "--source-include", "yes", "pkg.dsc"])
        "pkg.dsc" false (PyVal.str "yes") (fun _ _ => "pkg.dsc") (fun _ => Option.none)
        (fun _ => ["amd64"]) [("debian", "wheezy")]).all
      (fun j => decide ("yes" ∈ j.arguments))) = true) :=
  ⟨by decide, by decide, by decide, by decide, by decide, by decide, by decide,
    by decide, by decide,
    source_include_value_forwarded
      ["build_pkg_condor", "--source-include", "yes", "pkg.dsc"] 1 0 "yes"
      "pkg.dsc" (fun _ _ => "pkg.dsc") (fun _ => Option.none) (fun _ => ["amd64"])
      false (PyVal.str "yes") [("debian", "wheezy")]
      (by decide) (by decide) (by decide) (by decide) (by decide) (by decide)
      (by decide) (by decide) (by decide)⟩

/-- C4 claim at the concrete invocation
`build_pkg_condor --env debian wheezy pkg.dsc`, position of the `--env`
flag. -/
theorem env_arch_never_forwarded_holds :
    "--env" ∉ rewriteArgv ["build_pkg_condor", "--env", "debian", "wheezy", "pkg.dsc"] ∧
    "--arch" ∉ rewriteArgv ["build_pkg_condor", "--env", "debian", "wheezy", "pkg.dsc"] ∧
    "--env" ∉
      forwardedTemplate ["build_pkg_condor", "--env", "debian", "wheezy", "pkg.dsc"] ∧
    "--arch" ∉
      forwardedTemplate ["build_pkg_condor", "--env", "debian", "wheezy", "pkg.dsc"] ∧
    (["build_pkg_condor", "--env", "debian", "wheezy", "pkg.dsc"].getD 1 "" = "--env" →
      stepNext ["build_pkg_condor", "--env", "debian", "wheezy", "pkg.dsc"] 1 = 1 + 3 ∧
      stepEmit ["build_pkg_condor", "--env", "debian", "wheezy", "pkg.dsc"] 1 = []) ∧
    (["build_pkg_condor", "--env", "debian", "wheezy", "pkg.dsc"].getD 1 "" = "--arch" →
      stepNext ["build_pkg_condor", "--env", "debian", "wheezy", "pkg.dsc"] 1 =
        archSkip ["build_pkg_condor", "--env", "debian", "wheezy", "pkg.dsc"] (1 + 1) + 1 ∧
      stepEmit ["build_pkg_condor", "--env", "debian", "wheezy", "pkg.dsc"] 1 = []) ∧
    ((1 : Nat) ∈ visited ["build_pkg_condor", "--env", "debian", "wheezy", "pkg.dsc"] 0 →
      ["build_pkg_condor", "--env", "debian", "wheezy", "pkg.dsc"].getD 1 "" = "--env" →
      (1 : Nat) + 1 ∉
        visited ["build_pkg_condor", "--env", "debian", "wheezy", "pkg.dsc"] 0 ∧
      (1 : Nat) + 2 ∉
        visited ["build_pkg_condor", "--env", "debian", "wheezy", "pkg.dsc"] 0) :=
  env_arch_never_forwarded ["build_pkg_condor", "--env", "debian", "wheezy", "pkg.dsc"] 1

/-- C6 claim at a concrete nonzero exit status and document. -/
theorem submission_failure_propagates_holds :
    ((1 : Int) ≠ 0 → ∃ pre post, condorSubmitFinish 1 "universe = vanilla\nqueue\n" =
        Except.error (pre ++ "universe = vanilla\nqueue\n" ++ post)) ∧
    ((1 : Int) = 0 →
      condorSubmitFinish 1 "universe = vanilla\nqueue\n" = Except.ok ()) :=
  submission_failure_propagates 1 "universe = vanilla\nqueue\n"

/-- C7 claim at a concrete configuration and family. -/
theorem option_resolution_precedence_holds :
    get_build_option
        (fun k => if k = "debian architectures" then some "amd64 i386" else Option.none)
        "architectures" (some "sparc") "debian" "amd64" = "sparc" ∧
    ((fun k => if k = "debian architectures" then some "amd64 i386" else Option.none)
        ("debian" ++ " " ++ "architectures") = some "amd64 i386" →
      get_build_option
        (fun k => if k = "debian architectures" then some "amd64 i386" else Option.none)
        "architectures" Option.none "debian" "amd64" = "amd64 i386") ∧
    ((fun k => if k = "debian architectures" then some "amd64 i386" else Option.none)
        ("debian" ++ " " ++ "architectures") = Option.none →
      get_build_option
        (fun k => if k = "debian architectures" then some "amd64 i386" else Option.none)
        "architectures" Option.none "debian" "amd64" = "amd64") ∧
    (PyVal.str "yes" ≠ PyVal.none →
      resolveSourceInclude
        (fun k => if k = "debian architectures" then some "amd64 i386" else Option.none)
        (PyVal.str "yes") "debian" = PyVal.str "yes") ∧
    ((fun k => if k = "debian architectures" then some "amd64 i386" else Option.none)
        ("debian" ++ " source include") = some "amd64 i386" →
      resolveSourceInclude
        (fun k => if k = "debian architectures" then some "amd64 i386" else Option.none)
        PyVal.none "debian" = PyVal.str "amd64 i386") ∧
    ((fun k => if k = "debian architectures" then some "amd64 i386" else Option.none)
        ("debian" ++ " source include") = Option.none →
      resolveSourceInclude
        (fun k => if k = "debian architectures" then some "amd64 i386" else Option.none)
        PyVal.none "debian" = PyVal.bfalse) :=
  option_resolution_precedence
    (fun k => if k = "debian architectures" then some "amd64 i386" else Option.none)
    "architectures" "debian" "amd64" "sparc" "amd64 i386" (PyVal.str "yes")

/-- C8 claim at a concrete filesystem and log directory path. -/
theorem logdir_autocreated_idempotent_holds :
    (["var", "log", "condor"] ∈ ([["var"]] : List (List String)) →
      ensureLogdir [["var"]] ["var", "log", "condor"] = [["var"]]) ∧
    (["var", "log", "condor"] ≠ ([] : List String) →
      ["var", "log", "condor"] ∈ ensureLogdir [["var"]] ["var", "log", "condor"]) ∧
    (∀ k, k < (["var", "log", "condor"] : List String).length →
      (["var", "log", "condor"] : List String).take (k + 1) ∈
        makedirs [["var"]] ["var", "log", "condor"]) ∧
    ensureLogdir (ensureLogdir [["var"]] ["var", "log", "condor"])
        ["var", "log", "condor"] =
      ensureLogdir [["var"]] ["var", "log", "condor"] :=
  logdir_autocreated_idempotent [["var"]] ["var", "log", "condor"]

/-- C9 claim at the concrete invocation
`build_pkg_condor --arch amd64 i386 pkg.dsc`, position of the `--arch`
flag. -/
theorem arch_second_arm_dead_holds :
    stepFn ["build_pkg_condor", "--arch", "amd64", "i386", "pkg.dsc"] 1 =
      stepFnLive ["build_pkg_condor", "--arch", "amd64", "i386", "pkg.dsc"] 1 ∧
    rewriteFrom ["build_pkg_condor", "--arch", "amd64", "i386", "pkg.dsc"] 1 =
      rewriteFromLive ["build_pkg_condor", "--arch", "amd64", "i386", "pkg.dsc"] 1 ∧
    (["build_pkg_condor", "--arch", "amd64", "i386", "pkg.dsc"].getD 1 "" = "--arch" →
      stepFn ["build_pkg_condor", "--arch", "amd64", "i386", "pkg.dsc"] 1 =
        (archSkip ["build_pkg_condor", "--arch", "amd64", "i386", "pkg.dsc"] (1 + 1) + 1,
          [])) :=
  arch_second_arm_dead ["build_pkg_condor", "--arch", "amd64", "i386", "pkg.dsc"] 1

end Bigmess
